import Mathlib

/-! Translator: a two-level string table with a fallback.

Shallow embedding of `loader/src/translation/Translator.hpp` and `Translator.cpp`.

* `std::unordered_map<K, V>` is an association list with first-match lookup.
  `find` never changes the map; `operator[]` adds a default-constructed value
  when the key is absent; construction from an initializer list keeps the first
  entry of each key.
* `int64_t` selectors are integers; the code only compares them with `0` and `1`.
* `log::debug` appends a formatted line to the list of lines a call emits.
* A member function returns a `Call`: its return value, the object after the
  call and the lines it logged.
-/

namespace Translator

/-! ## `std::unordered_map` -/

/-- An `std::unordered_map<std::string, V>` as an association list. -/
abbrev UMap (V : Type) := List (String × V)

/-- The inner map of the table: translation key to display text. -/
abbrev KeyMap := UMap String

/-- The member `translations`: language code to inner map. -/
abbrev LangMap := UMap KeyMap

/-- `m.find(k)`: `none` stands for `m.end()`, `some v` for an iterator whose
`second` is `v`. The map is not changed. -/
def UMap.find {V : Type} : UMap V → String → Option V
  | [], _ => none
  | (k', v) :: rest, k => if k' = k then some v else UMap.find rest k

/-- `m.insert` of the pair `(k, v)`: nothing happens when `k` is already a key. -/
def UMap.insert {V : Type} (m : UMap V) (k : String) (v : V) : UMap V :=
  match UMap.find m k with
  | some _ => m
  | none => m ++ [(k, v)]

/-- Construction from an initializer list: the entries are inserted in order. -/
def UMap.ofInitList {V : Type} (entries : List (String × V)) : UMap V :=
  entries.foldl (fun m e => UMap.insert m e.1 e.2) []

/-- `m[k]`: the mapped value, and the map after the access. An absent key is
inserted with the default value `dflt` of `V`. -/
def UMap.index {V : Type} (m : UMap V) (k : String) (dflt : V) : V × UMap V :=
  match UMap.find m k with
  | some v => (v, m)
  | none => (dflt, m ++ [(k, dflt)])

/-! ## The object and the result of a call -/

/-- The data members of `class Translator`. -/
structure State where
  currentLang : String
  translations : LangMap
deriving DecidableEq, Repr

/-- What a member function call yields: the returned value, the object after
the call, and the lines passed to `log::debug`, in order. -/
structure Call (α : Type) where
  ret : α
  self : State
  logs : List String

/-! ## The member functions -/

/-- The entries written under `"en-us"` in `loadTranslations`. -/
def enUsEntries : List (String × String) :=
  [ ("geode.mods.installedTab", "Installed"),
    ("geode.mods.featuredTab", "Featured"),
    ("geode.mods.downloadTab", "Download"),
    ("geode.mods.recentTab", "Recent"),
    ("geode.mods.modtoberTab", "Modtober") ]

/-- The entries written under `"pt-pt"` in `loadTranslations`. -/
def ptPtEntries : List (String × String) :=
  [ ("geode.mods.installedTab", "Instalados"),
    ("geode.mods.featuredTab", "Destaques"),
    ("geode.mods.downloadTab", "Transferir"),
    ("geode.mods.recentTab", "Recentes"),
    ("geode.mods.modtoberTab", "Modtober") ]

/-- The braced literal assigned to `translations` in `loadTranslations`: one
inner map per language, each built from its own initializer list. -/
def translationsLiteral : List (String × KeyMap) :=
  [ ("en-us", UMap.ofInitList enUsEntries),
    ("pt-pt", UMap.ofInitList ptPtEntries) ]

/-- `Translator::loadTranslations`: assign the literal table, log the active
language, then log every entry of `translations[currentLang]`. The loop visits
the entries in list order. -/
def loadTranslations (t : State) : Call Unit :=
  let translations : LangMap := UMap.ofInitList translationsLiteral
  let header := "Translations loaded for language: " ++ t.currentLang
  let indexed := UMap.index translations t.currentLang []
  { ret := (),
    self := { currentLang := t.currentLang, translations := indexed.2 },
    logs := header ::
      indexed.1.map (fun kv => "Loaded translation: " ++ kv.1 ++ " -> " ++ kv.2) }

/-- `Translator::Translator`: the members start default-constructed, then
`currentLang = "en-us"` and `loadTranslations()`. -/
def construct : Call Unit :=
  loadTranslations { currentLang := "en-us", translations := [] }

/-- `Translator::setLanguage`: the `switch` on the selector, then
`loadTranslations()`. -/
def setLanguage (t : State) (languageSetting : Int) : Call Unit :=
  let picked : String × String :=
    if languageSetting = 0 then
      ("en-us", "Language set to English (en-us)")
    else if languageSetting = 1 then
      ("pt-pt", "Language set to Portuguese (pt-pt)")
    else
      ("en-us", "Language set to default English (en-us)")
  let loaded := loadTranslations { currentLang := picked.1, translations := t.translations }
  { ret := (), self := loaded.self, logs := picked.2 :: loaded.logs }

/-- `Translator::getTranslation`: `find` the active language, then `find` the
key in its inner map; on a miss at either level return the bracketed text. -/
def getTranslation (t : State) (translationKey : String) : Call String :=
  let missing : Call String :=
    { ret := "[Missing translation: " ++ translationKey ++ "]",
      self := t,
      logs := ["Translation not found for key '" ++ translationKey ++
        "', returning key as fallback"] }
  match UMap.find t.translations t.currentLang with
  | some langTranslations =>
    match UMap.find langTranslations translationKey with
    | some text =>
      { ret := text,
        self := t,
        logs := ["Fetched translation for key '" ++ translationKey ++ "': " ++ text] }
    | none => missing
  | none => missing

/-- The object after construction followed by `setLanguage` calls with the
given selectors, in order. -/
def afterCalls (selectors : List Int) : State :=
  selectors.foldl (fun t s => (setLanguage t s).self) construct.self

/-- The table every `loadTranslations` call assigns, before the logging loop
indexes it. -/
def loadedTable : LangMap := UMap.ofInitList translationsLiteral

/-- The keys the literal defines, as written under `"en-us"`. -/
def definedKeys : List String := enUsEntries.map Prod.fst

/-! ## The populate-once store of the design notes

A second store, written from the design notes and not from the code: the table
is populated once, at construction, and a language switch only replaces the
active language. Lookup is `getTranslation`, unchanged. -/

/-- Construction of the populate-once store: the default language and the
table of the literal data set. -/
def constructOnce : State :=
  { currentLang := "en-us", translations := UMap.ofInitList translationsLiteral }

/-- Language switch of the populate-once store: `0` gives the default, `1` the
alternate, anything else the default; the table is kept as it is. -/
def setLanguageSwitchOnly (t : State) (selector : Int) : State :=
  { currentLang :=
      if selector = 0 then "en-us" else if selector = 1 then "pt-pt" else "en-us",
    translations := t.translations }

/-- The populate-once store after construction and the given switches. -/
def afterCallsSwitchOnly (selectors : List Int) : State :=
  selectors.foldl setLanguageSwitchOnly constructOnce

/-! ## Reading the key back from a fallback text -/

/-- The fixed text in front of the key in a fallback text. -/
def missingOpening : String := "[Missing translation: "

/-- Strip the fixed opening and the final character of a text. This is the
caller-side inverse of the fallback format; the source has no such function. -/
def keyOfMissingText (text : String) : String :=
  String.mk ((text.data.drop missingOpening.length).dropLast)

/-! ## Shared lemmas -/

/-- The fallback text for a key never is the empty string. -/
lemma missing_text_ne_empty (k : String) :
    "[Missing translation: " ++ k ++ "]" ≠ "" := by
  intro h
  have hlen := congrArg String.length h
  have hclose : "]".length = 1 := rfl
  simp only [String.length_append, hclose] at hlen
  exact Nat.succ_ne_zero _ hlen

/-- The object after `setLanguage`: the prior object plays no part in it. -/
lemma setLanguage_self (t : State) (s : Int) :
    (setLanguage t s).self =
      { currentLang := if s = 1 then "pt-pt" else "en-us", translations := loadedTable } := by
  unfold setLanguage
  by_cases h0 : s = 0
  · subst h0; rfl
  · by_cases h1 : s = 1
    · subst h1; rfl
    · simp only [h0, h1, if_false]; rfl

/-- The object after construction. -/
lemma construct_self :
    construct.self = { currentLang := "en-us", translations := loadedTable } := rfl

/-- Only two objects are reachable. -/
lemma afterCalls_cases (selectors : List Int) :
    afterCalls selectors = { currentLang := "en-us", translations := loadedTable } ∨
    afterCalls selectors = { currentLang := "pt-pt", translations := loadedTable } := by
  unfold afterCalls
  induction selectors using List.reverseRecOn with
  | nil => exact Or.inl construct_self
  | append_singleton init s _ =>
    rw [List.foldl_append, List.foldl_cons, List.foldl_nil, setLanguage_self]
    by_cases h1 : s = 1
    · right; simp [h1]
    · left; simp [h1]

/-- The returned text of a lookup, as one expression over the two `find`s. -/
lemma getTranslation_ret (t : State) (k : String) :
    (getTranslation t k).ret =
      ((UMap.find t.translations t.currentLang).bind (fun m => UMap.find m k)).getD
        ("[Missing translation: " ++ k ++ "]") := by
  unfold getTranslation
  cases hl : UMap.find t.translations t.currentLang with
  | none => rfl
  | some m =>
    cases hk : UMap.find m k with
    | none => simp [hk]
    | some text => simp [hk]

/-- The two languages of the loaded table. -/
lemma find_loadedTable_en : UMap.find loadedTable "en-us" = some enUsEntries := rfl

lemma find_loadedTable_pt : UMap.find loadedTable "pt-pt" = some ptPtEntries := rfl

/-- What a lookup returns while the active language is `"en-us"`. -/
lemma getTranslation_en (k : String) :
    (getTranslation { currentLang := "en-us", translations := loadedTable } k).ret =
      if "geode.mods.installedTab" = k then "Installed"
      else if "geode.mods.featuredTab" = k then "Featured"
      else if "geode.mods.downloadTab" = k then "Download"
      else if "geode.mods.recentTab" = k then "Recent"
      else if "geode.mods.modtoberTab" = k then "Modtober"
      else "[Missing translation: " ++ k ++ "]" := by
  rw [getTranslation_ret]
  show ((UMap.find loadedTable "en-us").bind _).getD _ = _
  rw [find_loadedTable_en]
  show (UMap.find enUsEntries k).getD _ = _
  unfold enUsEntries
  simp only [UMap.find]
  split_ifs <;> rfl

/-- What a lookup returns while the active language is `"pt-pt"`. -/
lemma getTranslation_pt (k : String) :
    (getTranslation { currentLang := "pt-pt", translations := loadedTable } k).ret =
      if "geode.mods.installedTab" = k then "Instalados"
      else if "geode.mods.featuredTab" = k then "Destaques"
      else if "geode.mods.downloadTab" = k then "Transferir"
      else if "geode.mods.recentTab" = k then "Recentes"
      else if "geode.mods.modtoberTab" = k then "Modtober"
      else "[Missing translation: " ++ k ++ "]" := by
  rw [getTranslation_ret]
  show ((UMap.find loadedTable "pt-pt").bind _).getD _ = _
  rw [find_loadedTable_pt]
  show (UMap.find ptPtEntries k).getD _ = _
  unfold ptPtEntries
  simp only [UMap.find]
  split_ifs <;> rfl

/-! ## Language switch followed by lookup -/

/-- C1: for every selector `s` (every integer, so every 64-bit one, negatives
included) and every prior object, after `setLanguage(s)` each of the five defined
keys resolves to its pt-pt text when `s = 1` and to its en-us text otherwise; in
particular `setLanguage(1)` then `"geode.mods.featuredTab"` gives `"Destaques"` and
`setLanguage(99)` then `"geode.mods.downloadTab"` gives `"Download"`. -/
theorem setLanguage_then_getTranslation (t : State) (s : Int) :
    (getTranslation (setLanguage t s).self "geode.mods.installedTab").ret
        = (if s = 1 then "Instalados" else "Installed") ∧
    (getTranslation (setLanguage t s).self "geode.mods.featuredTab").ret
        = (if s = 1 then "Destaques" else "Featured") ∧
    (getTranslation (setLanguage t s).self "geode.mods.downloadTab").ret
        = (if s = 1 then "Transferir" else "Download") ∧
    (getTranslation (setLanguage t s).self "geode.mods.recentTab").ret
        = (if s = 1 then "Recentes" else "Recent") ∧
    (getTranslation (setLanguage t s).self "geode.mods.modtoberTab").ret
        = (if s = 1 then "Modtober" else "Modtober") ∧
    (getTranslation (setLanguage t 1).self "geode.mods.featuredTab").ret = "Destaques" ∧
    (getTranslation (setLanguage t 99).self "geode.mods.downloadTab").ret = "Download" := by
  have h1 := setLanguage_self t 1
  have h99 := setLanguage_self t 99
  rw [setLanguage_self t s, h1, h99]
  by_cases hs : s = 1
  · simp only [hs, if_true]
    exact ⟨rfl, rfl, rfl, rfl, rfl, rfl, rfl⟩
  · simp only [hs, if_false]
    exact ⟨rfl, rfl, rfl, rfl, rfl, rfl, rfl⟩

/-- C2: in every object, whatever its table and active language, a key (the
empty one included) that the inner map of the active language does not hold
resolves to exactly `"[Missing translation: " ++ k ++ "]"`. -/
theorem getTranslation_missing_key (t : State) (k : String) (inner : KeyMap)
    (hl : UMap.find t.translations t.currentLang = some inner)
    (hk : UMap.find inner k = none) :
    (getTranslation t k).ret = "[Missing translation: " ++ k ++ "]" := by
  rw [getTranslation_ret, hl]
  show (UMap.find inner k).getD _ = _
  rw [hk]
  rfl

/-- Witness for C2: the empty key on the freshly constructed object. -/
theorem getTranslation_missing_key_witness :
    UMap.find construct.self.translations construct.self.currentLang = some enUsEntries ∧
    UMap.find enUsEntries "" = none ∧
    (getTranslation construct.self "").ret = "[Missing translation: " ++ "" ++ "]" :=
  ⟨rfl, rfl, getTranslation_missing_key construct.self "" enUsEntries rfl rfl⟩

/-- C3: `setLanguage` is idempotent: a second call with the same selector leaves
the active language and the table as the first call left them, and so every key
resolves the same. -/
theorem setLanguage_idempotent (t : State) (x : Int) :
    (setLanguage (setLanguage t x).self x).self.currentLang
        = (setLanguage t x).self.currentLang ∧
    (setLanguage (setLanguage t x).self x).self.translations
        = (setLanguage t x).self.translations ∧
    ∀ k : String,
      (getTranslation (setLanguage (setLanguage t x).self x).self k).ret
        = (getTranslation (setLanguage t x).self k).ret := by
  have h : (setLanguage (setLanguage t x).self x).self = (setLanguage t x).self := by
    rw [setLanguage_self (setLanguage t x).self x, setLanguage_self t x]
  rw [h]
  exact ⟨rfl, rfl, fun _ => rfl⟩

/-- C4: right after construction, with no `setLanguage` call, the active
language is `"en-us"`, `"geode.mods.installedTab"` resolves to `"Installed"`, and
the object equals the one `setLanguage(0)` produces from any prior object. -/
theorem construct_default :
    construct.self.currentLang = "en-us" ∧
    (getTranslation construct.self "geode.mods.installedTab").ret = "Installed" ∧
    afterCalls [] = construct.self ∧
    ∀ t : State, (setLanguage t 0).self = construct.self := by
  refine ⟨rfl, rfl, rfl, fun t => ?_⟩
  rw [setLanguage_self t 0, construct_self]
  rfl

/-- C5: after construction and any finite sequence of `setLanguage` calls,
`"does.not.exist"` resolves to `"[Missing translation: does.not.exist]"`. -/
theorem getTranslation_unknown_key_reachable (selectors : List Int) :
    (getTranslation (afterCalls selectors) "does.not.exist").ret
      = "[Missing translation: does.not.exist]" := by
  rcases afterCalls_cases selectors with h | h <;> rw [h] <;> rfl

/-! ## Reachable objects -/

/-- C6: after construction and any finite sequence of `setLanguage` calls, the
active language is `"en-us"` or `"pt-pt"`, the table holds an entry for both
codes, and so the `find` of the active language in `getTranslation` succeeds. -/
theorem reachable_invariant (selectors : List Int) :
    ((afterCalls selectors).currentLang = "en-us" ∨
      (afterCalls selectors).currentLang = "pt-pt") ∧
    (UMap.find (afterCalls selectors).translations "en-us").isSome = true ∧
    (UMap.find (afterCalls selectors).translations "pt-pt").isSome = true ∧
    (UMap.find (afterCalls selectors).translations
      (afterCalls selectors).currentLang).isSome = true := by
  rcases afterCalls_cases selectors with h | h <;> rw [h]
  · exact ⟨Or.inl rfl, rfl, rfl, rfl⟩
  · exact ⟨Or.inr rfl, rfl, rfl, rfl⟩

/-- C7: after construction and any finite sequence of `setLanguage` calls, every
key, the empty one included, resolves to a non-empty string: every display text
stored in the table is non-empty, and so is the fallback text of every key. -/
theorem getTranslation_nonempty_reachable (selectors : List Int) (k : String) :
    (getTranslation (afterCalls selectors) k).ret ≠ "" ∧
    ((afterCalls selectors).translations.all
      (fun entry => entry.2.all (fun kv => decide (kv.2 ≠ "")))) = true ∧
    "[Missing translation: " ++ k ++ "]" ≠ "" := by
  have hfb := missing_text_ne_empty k
  refine ⟨?_, ?_, hfb⟩
  · rcases afterCalls_cases selectors with h | h <;> rw [h]
    · rw [getTranslation_en]
      split_ifs
      all_goals first | exact hfb | decide
    · rw [getTranslation_pt]
      split_ifs
      all_goals first | exact hfb | decide
  · rcases afterCalls_cases selectors with h | h <;> rw [h] <;> rfl

/-! ## Lookup on arbitrary objects -/

/-- C8: in every object whose table has no entry for the active language,
`getTranslation` still returns, and what it returns for every key is the fallback
`"[Missing translation: " ++ k ++ "]"`, whatever the other languages hold. -/
theorem getTranslation_missing_language (t : State)
    (hl : UMap.find t.translations t.currentLang = none) (k : String) :
    (getTranslation t k).ret = "[Missing translation: " ++ k ++ "]" := by
  rw [getTranslation_ret, hl]
  rfl

/-- Witness for C8: the active language `"fr-fr"` over the loaded table, and a
key that `"en-us"` defines. -/
theorem getTranslation_missing_language_witness :
    UMap.find loadedTable "fr-fr" = none ∧
    (UMap.find loadedTable "en-us").bind
      (fun m => UMap.find m "geode.mods.installedTab") = some "Installed" ∧
    (getTranslation { currentLang := "fr-fr", translations := loadedTable }
        "geode.mods.installedTab").ret
      = "[Missing translation: " ++ "geode.mods.installedTab" ++ "]" :=
  ⟨rfl, rfl,
    getTranslation_missing_language { currentLang := "fr-fr", translations := loadedTable }
      rfl "geode.mods.installedTab"⟩

/-- C9: `setLanguage` replaces the table: from any two prior objects the same
selector yields the same object, whose table is the literal data set and nothing
else; hence `setLanguage(a)` followed by `setLanguage(b)` equals `setLanguage(b)`. -/
theorem setLanguage_replaces_table (t₁ t₂ : State) (s a b : Int) :
    (setLanguage t₁ s).self = (setLanguage t₂ s).self ∧
    (setLanguage t₁ s).self.translations = UMap.ofInitList translationsLiteral ∧
    (setLanguage (setLanguage t₁ a).self b).self = (setLanguage t₁ b).self := by
  refine ⟨?_, ?_, ?_⟩
  · rw [setLanguage_self t₁ s, setLanguage_self t₂ s]
  · rw [setLanguage_self t₁ s]
    rfl
  · rw [setLanguage_self (setLanguage t₁ a).self b, setLanguage_self t₁ b]

/-- C10: `getTranslation` leaves the object unchanged, on a hit as on a miss:
the active language and the table after the call are those before it, a missed
key is not inserted, and repeating the lookup returns the same string. -/
theorem getTranslation_frame (t : State) (k : String) :
    (getTranslation t k).self.currentLang = t.currentLang ∧
    (getTranslation t k).self.translations = t.translations ∧
    (getTranslation (getTranslation t k).self k).ret = (getTranslation t k).ret := by
  have h : (getTranslation t k).self = t := by
    unfold getTranslation
    cases UMap.find t.translations t.currentLang with
    | none => rfl
    | some m =>
      cases hk : UMap.find m k with
      | none => simp [hk]
      | some text => simp [hk]
  rw [h]
  exact ⟨rfl, rfl, rfl⟩

/-! ## Further shared lemmas -/

/-- The fallback text of a key is longer than the key, so it is not the key. -/
lemma missing_text_ne_key (k : String) :
    "[Missing translation: " ++ k ++ "]" ≠ k := by
  intro h
  have hlen := congrArg String.length h
  have hopen : "[Missing translation: ".length = 22 := rfl
  have hclose : "]".length = 1 := rfl
  simp only [String.length_append, hopen, hclose] at hlen
  omega

/-- Stripping the fallback text of a key gives the key back. -/
lemma keyOfMissingText_missing (k : String) :
    keyOfMissingText ("[Missing translation: " ++ k ++ "]") = k := by
  unfold keyOfMissingText missingOpening
  have hd : ("[Missing translation: " ++ k ++ "]").data
      = "[Missing translation: ".data ++ (k.data ++ [']']) := by
    simp only [String.data_append, List.append_assoc]
  rw [hd]
  have hlen : "[Missing translation: ".length = "[Missing translation: ".data.length := rfl
  rw [hlen, List.drop_left, List.dropLast_concat]

/-- The populate-once store and the code reach the same object. -/
lemma afterCallsSwitchOnly_eq (selectors : List Int) :
    afterCallsSwitchOnly selectors = afterCalls selectors := by
  induction selectors using List.reverseRecOn with
  | nil => rfl
  | append_singleton init s ih =>
    have hcode : afterCalls (init ++ [s]) = (setLanguage (afterCalls init) s).self := by
      unfold afterCalls
      rw [List.foldl_append, List.foldl_cons, List.foldl_nil]
    have hopt : afterCallsSwitchOnly (init ++ [s])
        = setLanguageSwitchOnly (afterCallsSwitchOnly init) s := by
      unfold afterCallsSwitchOnly
      rw [List.foldl_append, List.foldl_cons, List.foldl_nil]
    have htable : (afterCalls init).translations = loadedTable := by
      rcases afterCalls_cases init with h | h <;> rw [h]
    rw [hcode, hopt, ih, setLanguage_self]
    unfold setLanguageSwitchOnly
    rw [htable]
    by_cases h0 : s = 0
    · subst h0; rfl
    · by_cases h1 : s = 1
      · subst h1; rfl
      · simp only [h0, h1, if_false]

/-! ## Refinement, logging and the fallback format -/

/-- C11: the store that populates the table once at construction and only
switches the active language on `setLanguage` is observationally equivalent to
the code, which rebuilds the table on every `setLanguage`: after the same finite
sequence of selectors both hold the same object and return the same text for
every key. -/
theorem populate_once_equivalent (selectors : List Int) (k : String) :
    (getTranslation (afterCallsSwitchOnly selectors) k).ret
        = (getTranslation (afterCalls selectors) k).ret ∧
    afterCallsSwitchOnly selectors = afterCalls selectors := by
  rw [afterCallsSwitchOnly_eq]
  exact ⟨rfl, rfl⟩

/-- C12: with the log as the list of emitted lines, every `getTranslation` call
emits at least one line, on the hit path and on the miss path alike, and every
`setLanguage` call emits at least one line; appended to any earlier log, each
call makes it strictly longer. -/
theorem calls_always_log (t : State) (k : String) (s : Int) (log : List String) :
    1 ≤ (getTranslation t k).logs.length ∧
    1 ≤ (setLanguage t s).logs.length ∧
    log.length < (log ++ (getTranslation t k).logs).length ∧
    log.length < (log ++ (setLanguage t s).logs).length := by
  have hget : (getTranslation t k).logs.length = 1 := by
    unfold getTranslation
    cases hl : UMap.find t.translations t.currentLang with
    | none => rfl
    | some m =>
      cases hk : UMap.find m k with
      | none => simp [hk]
      | some text => simp [hk]
  have hset : 1 ≤ (setLanguage t s).logs.length := by
    unfold setLanguage
    simp only [List.length_cons]
    omega
  rw [List.length_append, List.length_append]
  omega

/-- C13, the claim as stated fails: on the freshly constructed object
`"does.not.exist"` is absent from the inner map of the active language, and the
lookup does not return the key itself. -/
theorem getTranslation_miss_is_not_key :
    UMap.find construct.self.translations construct.self.currentLang = some enUsEntries ∧
    UMap.find enUsEntries "does.not.exist" = none ∧
    (getTranslation construct.self "does.not.exist").ret ≠ "does.not.exist" :=
  ⟨rfl, rfl, by decide⟩

/-- C13, amended: in every object, for every key `k` absent from the inner map
of the active language, `getTranslation(k)` returns the fallback text
`"[Missing translation: " ++ k ++ "]"`, which embeds the key and is never the key
itself. -/
theorem getTranslation_miss_embeds_key (t : State) (k : String) (inner : KeyMap)
    (hl : UMap.find t.translations t.currentLang = some inner)
    (hk : UMap.find inner k = none) :
    (getTranslation t k).ret = "[Missing translation: " ++ k ++ "]" ∧
    (getTranslation t k).ret ≠ k := by
  have hret : (getTranslation t k).ret = "[Missing translation: " ++ k ++ "]" := by
    rw [getTranslation_ret, hl]
    show (UMap.find inner k).getD _ = _
    rw [hk]
    rfl
  rw [hret]
  exact ⟨rfl, missing_text_ne_key k⟩

/-- Witness for the amended C13: an unknown key while `"pt-pt"` is active. -/
theorem getTranslation_miss_embeds_key_witness :
    UMap.find (afterCalls [1]).translations (afterCalls [1]).currentLang = some ptPtEntries ∧
    UMap.find ptPtEntries "geode.mods.unknownTab" = none ∧
    (getTranslation (afterCalls [1]) "geode.mods.unknownTab").ret
      = "[Missing translation: " ++ "geode.mods.unknownTab" ++ "]" ∧
    (getTranslation (afterCalls [1]) "geode.mods.unknownTab").ret ≠ "geode.mods.unknownTab" :=
  ⟨rfl, rfl, getTranslation_miss_embeds_key (afterCalls [1]) "geode.mods.unknownTab"
    ptPtEntries rfl rfl⟩

/-! ## Shape of the reachable table -/

/-- A key is missing under `"en-us"` exactly when it is missing under `"pt-pt"`. -/
lemma find_entries_isNone (k : String) :
    (UMap.find enUsEntries k).isNone = (UMap.find ptPtEntries k).isNone := by
  unfold enUsEntries ptPtEntries
  simp only [UMap.find]
  split_ifs <;> rfl

/-- Membership in the defined keys, spelled out. -/
lemma mem_definedKeys (k : String) :
    k ∈ definedKeys ↔
      "geode.mods.installedTab" = k ∨ "geode.mods.featuredTab" = k ∨
      "geode.mods.downloadTab" = k ∨ "geode.mods.recentTab" = k ∨
      "geode.mods.modtoberTab" = k := by
  have hkeys : definedKeys =
      ["geode.mods.installedTab", "geode.mods.featuredTab", "geode.mods.downloadTab",
        "geode.mods.recentTab", "geode.mods.modtoberTab"] := rfl
  rw [hkeys]
  simp only [List.mem_cons, List.mem_singleton, List.not_mem_nil, or_false]
  constructor <;> intro h <;>
    rcases h with h | h | h | h | h <;> simp [h]

/-- C14: after construction and any finite sequence of `setLanguage` calls the
table has exactly the two entries `"en-us"` and `"pt-pt"` (indexing the literal
table by the active language inserts nothing), both inner maps define the same
five keys without a duplicate, and a key is missing in one language exactly
when it is missing in the other. -/
theorem reachable_table_shape (selectors : List Int) (k : String) :
    (afterCalls selectors).translations.length = 2 ∧
    (afterCalls selectors).translations.map Prod.fst = ["en-us", "pt-pt"] ∧
    (UMap.index (UMap.ofInitList translationsLiteral)
        (afterCalls selectors).currentLang []).2 = UMap.ofInitList translationsLiteral ∧
    (afterCalls selectors).translations.map (fun entry => entry.2.map Prod.fst)
        = [definedKeys, definedKeys] ∧
    definedKeys.length = 5 ∧
    definedKeys.Nodup ∧
    ((UMap.find (afterCalls selectors).translations "en-us").bind
        (fun m => UMap.find m k)).isNone
      = ((UMap.find (afterCalls selectors).translations "pt-pt").bind
        (fun m => UMap.find m k)).isNone := by
  have hmiss :
      ((UMap.find loadedTable "en-us").bind (fun m => UMap.find m k)).isNone
        = ((UMap.find loadedTable "pt-pt").bind (fun m => UMap.find m k)).isNone := by
    rw [find_loadedTable_en, find_loadedTable_pt]
    exact find_entries_isNone k
  rcases afterCalls_cases selectors with h | h <;> rw [h]
  · exact ⟨rfl, rfl, rfl, rfl, rfl, by decide, hmiss⟩
  · exact ⟨rfl, rfl, rfl, rfl, rfl, by decide, hmiss⟩

/-- C15: after construction and any finite sequence of `setLanguage` calls, the
result tells a hit from a miss: `getTranslation(k)` is the fallback text of `k`
if and only if `k` is not one of the five defined keys. No stored display text
is the fallback text of its own key, and the match is exact and case-sensitive:
a key differing only in letter case, or by a trailing blank, misses. -/
theorem getTranslation_miss_iff_undefined (selectors : List Int) (k : String) :
    ((getTranslation (afterCalls selectors) k).ret = "[Missing translation: " ++ k ++ "]"
      ↔ k ∉ definedKeys) ∧
    ((afterCalls selectors).translations.all
      (fun entry => entry.2.all
        (fun kv => decide (kv.2 ≠ "[Missing translation: " ++ kv.1 ++ "]")))) = true ∧
    (getTranslation (afterCalls selectors) "Geode.Mods.InstalledTab").ret
      = "[Missing translation: Geode.Mods.InstalledTab]" ∧
    (getTranslation (afterCalls selectors) "geode.mods.installedTab ").ret
      = "[Missing translation: geode.mods.installedTab ]" := by
  have hiff : ∀ lang : String, (lang = "en-us" ∨ lang = "pt-pt") →
      ((getTranslation { currentLang := lang, translations := loadedTable } k).ret
          = "[Missing translation: " ++ k ++ "]" ↔ k ∉ definedKeys) := by
    intro lang hlang
    rw [mem_definedKeys]
    rcases hlang with hl | hl <;> subst hl
    · rw [getTranslation_en]
      split_ifs with h1 h2 h3 h4 h5
      · subst h1; decide
      · subst h2; decide
      · subst h3; decide
      · subst h4; decide
      · subst h5; decide
      · simp [h1, h2, h3, h4, h5]
    · rw [getTranslation_pt]
      split_ifs with h1 h2 h3 h4 h5
      · subst h1; decide
      · subst h2; decide
      · subst h3; decide
      · subst h4; decide
      · subst h5; decide
      · simp [h1, h2, h3, h4, h5]
  rcases afterCalls_cases selectors with h | h <;> rw [h]
  · exact ⟨hiff "en-us" (Or.inl rfl), rfl, rfl, rfl⟩
  · exact ⟨hiff "pt-pt" (Or.inr rfl), rfl, rfl, rfl⟩

/-! ## The fallback text determines the key -/

/-- Two keys with the same fallback text are the same key. -/
lemma missing_text_injective (k₁ k₂ : String)
    (h : "[Missing translation: " ++ k₁ ++ "]" = "[Missing translation: " ++ k₂ ++ "]") :
    k₁ = k₂ := by
  have hstrip := congrArg keyOfMissingText h
  rwa [keyOfMissingText_missing, keyOfMissingText_missing] at hstrip

/-- A lookup that finds nothing, at either level, returns the fallback text. -/
lemma getTranslation_ret_of_miss (t : State) (k : String)
    (h : (UMap.find t.translations t.currentLang).bind (fun m => UMap.find m k) = none) :
    (getTranslation t k).ret = "[Missing translation: " ++ k ++ "]" := by
  rw [getTranslation_ret, h]
  rfl

/-- C16: the fallback text identifies the missing key. For every two keys, equal
fallback texts force equal keys; so in every object two distinct keys that both
miss never give the same `getTranslation` result, and the key of a miss is read
back from the result by stripping the fixed opening and the final `]`. -/
theorem missing_text_identifies_key (t : State) (k₁ k₂ : String) :
    ("[Missing translation: " ++ k₁ ++ "]" = "[Missing translation: " ++ k₂ ++ "]"
      → k₁ = k₂) ∧
    ((UMap.find t.translations t.currentLang).bind (fun m => UMap.find m k₁) = none →
      (UMap.find t.translations t.currentLang).bind (fun m => UMap.find m k₂) = none →
      k₁ ≠ k₂ →
      (getTranslation t k₁).ret ≠ (getTranslation t k₂).ret) ∧
    ((UMap.find t.translations t.currentLang).bind (fun m => UMap.find m k₁) = none →
      keyOfMissingText (getTranslation t k₁).ret = k₁) := by
  refine ⟨missing_text_injective k₁ k₂, ?_, ?_⟩
  · intro h₁ h₂ hne heq
    rw [getTranslation_ret_of_miss t k₁ h₁, getTranslation_ret_of_miss t k₂ h₂] at heq
    exact hne (missing_text_injective k₁ k₂ heq)
  · intro h₁
    rw [getTranslation_ret_of_miss t k₁ h₁, keyOfMissingText_missing]

/-- Witness for C16: two unknown keys, one a proper beginning of the other,
on the freshly constructed object. -/
theorem missing_text_identifies_key_witness :
    (UMap.find construct.self.translations construct.self.currentLang).bind
      (fun m => UMap.find m "geode.mods") = none ∧
    (UMap.find construct.self.translations construct.self.currentLang).bind
      (fun m => UMap.find m "geode.mods]") = none ∧
    (getTranslation construct.self "geode.mods").ret
      ≠ (getTranslation construct.self "geode.mods]").ret ∧
    keyOfMissingText (getTranslation construct.self "geode.mods]").ret = "geode.mods]" :=
  ⟨rfl, rfl,
    (missing_text_identifies_key construct.self "geode.mods" "geode.mods]").2.1
      rfl rfl (by decide),
    (missing_text_identifies_key construct.self "geode.mods]" "geode.mods").2.2 rfl⟩

end Translator
